import Mathlib

/-
  Verification development for the BEON-IPQuality repository.

  The Go sources are embedded shallowly:
  * machine integers become ℤ / ℕ (with explicit wrapping where Go wraps),
  * float64 arithmetic of the scoring engine becomes ℝ (math.Exp = Real.exp,
    math.Round = rounding half away from zero),
  * time.Time / time.Duration become ℚ (seconds since epoch; the zero Time is 0),
  * Go maps used only for lookup become association lists,
  * Go maps used for iteration become lists of key/value pairs, with the
    iteration order being the list order (Go map iteration order is arbitrary),
  * fallible operations return Option / Except.

  Each definition cites the Go function it embeds.
-/

namespace Beon

/-! ## Data model (pkg/models/models.go) -/

/-- Threat (pkg/models/models.go lines 36-43); the unused alias field Type is omitted,
the five fields read by the scorer and the compiler are kept. -/
structure Threat where
  threatType : String
  source : String
  confidence : ℚ
  weight : ℤ
  lastSeen : ℚ
deriving DecidableEq

/-- ASNInfo (pkg/models/models.go lines 66-75); only asnType is read by the scorer. -/
structure ASNInfo where
  asn : ℤ
  org : String
  asnType : String
  riskModifier : ℤ
deriving DecidableEq

/-! ## Scoring engine (src/unnamed/part_001, package scoring) -/

/-- Config (part_001 lines 11-31).  The two Go maps are lookup-only, so they are
association lists. -/
structure ScoringConfig where
  threatWeights : List (String × ℤ)
  asnTypeModifiers : List (String × ℤ)
  decayLambda : ℚ
  maxAge : ℚ
  minScore : ℤ
  maxScore : ℤ
  multiThreatMultiplier : ℚ
  datacenterMultiplier : ℚ
  highConfidenceThreshold : ℚ
  highConfidenceBonus : ℤ

/-- DefaultConfig (part_001 lines 34-66).  MaxAge is 180 days in seconds. -/
def defaultConfig : ScoringConfig where
  threatWeights :=
    [("tor", 70), ("vpn", 45), ("proxy", 50), ("datacenter", 40), ("botnet_c2", 95),
     ("malware", 90), ("spam", 60), ("hijacked", 95), ("attack", 75),
     ("suspicious", 55), ("malicious", 85)]
  asnTypeModifiers :=
    [("datacenter", 15), ("hosting", 15), ("isp", 0), ("business", -10),
     ("education", -20), ("government", -25)]
  decayLambda := 1/100
  maxAge := 180 * 24 * 3600
  minScore := 0
  maxScore := 100
  multiThreatMultiplier := 11/10
  datacenterMultiplier := 23/20
  highConfidenceThreshold := 9/10
  highConfidenceBonus := 5

/-- getThreatWeight (part_001 lines 187-192): map lookup with default 50. -/
def getThreatWeight (cfg : ScoringConfig) (threatType : String) : ℤ :=
  match cfg.threatWeights.lookup threatType with
  | some w => w
  | none => 50

/-- getASNModifier (part_001 lines 195-200): map lookup with default 0. -/
def getASNModifier (cfg : ScoringConfig) (asnType : String) : ℤ :=
  match cfg.asnTypeModifiers.lookup asnType with
  | some m => m
  | none => 0

/-- calculateDecay (part_001 lines 157-184).  lastSeen.IsZero() is lastSeen = 0,
age := now.Sub(lastSeen), age.Hours()/24 is age in seconds divided by 86400,
math.Exp is Real.exp. -/
noncomputable def calculateDecay (cfg : ScoringConfig) (lastSeen now : ℚ) : ℝ :=
  if lastSeen = 0 then 1/2
  else
    let age : ℚ := now - lastSeen
    if age > cfg.maxAge then 1/10
    else if age < 24 * 3600 then 1
    else
      let days : ℝ := (age : ℝ) / 86400
      let decay : ℝ := Real.exp (-(cfg.decayLambda : ℝ) * days)
      if decay < 1/10 then 1/10 else decay

/-- Go math.Round: round half away from zero. -/
noncomputable def goRound (x : ℝ) : ℤ :=
  if 0 ≤ x then ⌊x + 1/2⌋ else -⌊-x + 1/2⌋

/-- Confidence defaulting (part_001 lines 104-107): if confidence <= 0, use 0.5. -/
def confidenceOr (c : ℚ) : ℚ :=
  if c ≤ 0 then 1/2 else c

/-- Per-threat contribution (part_001 lines 100-115):
weight(threatType) * confidence * decay. -/
noncomputable def threatContribution (cfg : ScoringConfig) (now : ℚ) (t : Threat) : ℝ :=
  (getThreatWeight cfg t.threatType : ℝ) * (confidenceOr t.confidence : ℝ) *
    calculateDecay cfg t.lastSeen now

/-- Accumulation loop of CalculateScore (part_001 lines 96-117). -/
noncomputable def baseTotal (cfg : ScoringConfig) (threats : List Threat) (now : ℚ) : ℝ :=
  threats.foldl (fun acc t => acc + threatContribution cfg now t) 0

/-- Number of distinct threat types seen by the loop (the threatTypes set of
part_001 lines 97, 116, 120). -/
def distinctThreatTypes (threats : List Threat) : ℕ :=
  ((threats.map fun t => t.threatType).dedup).length

/-- Multi-threat multiplier (part_001 lines 119-122). -/
noncomputable def applyMultiThreat (cfg : ScoringConfig) (threats : List Threat) (total : ℝ) : ℝ :=
  if 1 < distinctThreatTypes threats then total * (cfg.multiThreatMultiplier : ℝ) else total

/-- ASN modifier and datacenter multiplier (part_001 lines 124-133). -/
noncomputable def applyASN (cfg : ScoringConfig) (asnInfo : Option ASNInfo) (total : ℝ) : ℝ :=
  match asnInfo with
  | none => total
  | some info =>
    let withModifier := total + (getASNModifier cfg info.asnType : ℝ)
    if info.asnType = "datacenter" ∨ info.asnType = "hosting" then
      withModifier * (cfg.datacenterMultiplier : ℝ)
    else withModifier

/-- High-confidence bonus, applied once (part_001 lines 135-141): the loop with
break is a bounded existential over the list. -/
noncomputable def applyHighConfidence (cfg : ScoringConfig) (threats : List Threat) (total : ℝ) : ℝ :=
  if ∃ t ∈ threats, cfg.highConfidenceThreshold ≤ t.confidence then
    total + (cfg.highConfidenceBonus : ℝ)
  else total

/-- Final clamping (part_001 lines 144-150): two sequential ifs. -/
def clampScore (cfg : ScoringConfig) (score : ℤ) : ℤ :=
  let score1 := if score < cfg.minScore then cfg.minScore else score
  if score1 > cfg.maxScore then cfg.maxScore else score1

/-- CalculateScore (part_001 lines 91-153). -/
noncomputable def CalculateScore (cfg : ScoringConfig) (threats : List Threat)
    (asnInfo : Option ASNInfo) (now : ℚ) : ℤ :=
  if threats = [] then cfg.minScore
  else
    clampScore cfg (goRound
      (applyHighConfidence cfg threats
        (applyASN cfg asnInfo
          (applyMultiThreat cfg threats (baseTotal cfg threats now)))))

/-- Score formula as worded by claim C2, for comparison with CalculateScore:
sum over observations of weight x confidence x decay (confidence defaulting
to 0.5 when at most 0, unknown threat weight 50 — both inside
threatContribution), times 1.10 when more than one distinct threat type
occurs, then the ASN modifier added and times 1.15 for datacenter/hosting,
then a one-time +5 bonus when any observation has confidence at least 0.9,
rounded half away from zero and clamped to [0, 100]. -/
noncomputable def specScore (threats : List Threat) (asnInfo : Option ASNInfo) (now : ℚ) : ℤ :=
  let total0 : ℝ := (threats.map (threatContribution defaultConfig now)).sum
  let total1 : ℝ :=
    if 1 < ((threats.map fun t => t.threatType).toFinset.card) then total0 * (11/10) else total0
  let total2 : ℝ :=
    match asnInfo with
    | none => total1
    | some info =>
      let withModifier := total1 + (getASNModifier defaultConfig info.asnType : ℝ)
      if info.asnType = "datacenter" ∨ info.asnType = "hosting" then withModifier * (23/20)
      else withModifier
  let total3 : ℝ := if ∃ t ∈ threats, (9/10 : ℚ) ≤ t.confidence then total2 + 5 else total2
  min 100 (max 0 (goRound total3))

/-- ClassifyRisk (part_001 lines 203-216). -/
def ClassifyRisk (score : ℤ) : String :=
  if score ≥ 85 then "critical"
  else if score ≥ 70 then "high"
  else if score ≥ 50 then "medium"
  else if score ≥ 25 then "low"
  else "clean"

/-- classifyRisk (internal/mmdb/writer.go lines 237-250), textually the same
thresholds as ClassifyRisk. -/
def classifyRiskW (score : ℤ) : String :=
  if score ≥ 85 then "critical"
  else if score ≥ 70 then "high"
  else if score ≥ 50 then "medium"
  else if score ≥ 25 then "low"
  else "clean"

/-- Numeric rank of a risk level, for stating monotonicity of the classifier. -/
def riskRank (level : String) : ℕ :=
  if level = "clean" then 0
  else if level = "low" then 1
  else if level = "medium" then 2
  else if level = "high" then 3
  else if level = "critical" then 4
  else 5

/-! ## IP addresses and the net/netip parser

Addresses are modelled as a v4 flag plus a numeric value (< 2^32 for IPv4,
< 2^128 for IPv6); this matches netip.Addr, where an IPv4-mapped IPv6 address
is a 16-byte address (v4 = false) whose top 96 bits are 0x...ffff.

The textual parser below models Go net/netip.ParseAddr, which the repository
calls from pkg/iputil and internal/mmdb/writer.go.  IPv6 zone suffixes
(percent signs) are rejected rather than modelled; no input in this
development contains one. -/

structure Addr where
  v4 : Bool
  val : ℕ
deriving DecidableEq

/-- Decimal digit value of a character. -/
def decDigit (c : Char) : Option ℕ :=
  if '0' ≤ c ∧ c ≤ '9' then some (c.toNat - 48) else none

/-- Hexadecimal digit value of a character. -/
def hexDigit (c : Char) : Option ℕ :=
  if '0' ≤ c ∧ c ≤ '9' then some (c.toNat - 48)
  else if 'a' ≤ c ∧ c ≤ 'f' then some (c.toNat - 87)
  else if 'A' ≤ c ∧ c ≤ 'F' then some (c.toNat - 55)
  else none

/-- Split a character list at every occurrence of a separator character. -/
def splitOnChar (c : Char) : List Char → List (List Char)
  | [] => [[]]
  | a :: rest =>
    let r := splitOnChar c rest
    if a = c then [] :: r
    else
      match r with
      | [] => [[a]]
      | h :: t => (a :: h) :: t

/-- One dotted-quad field: 1-3 decimal digits, value at most 255, leading
zeros rejected (as net/netip does). -/
def parseV4Field (s : List Char) : Option ℕ :=
  match s.mapM decDigit with
  | none => none
  | some ds =>
    if ds.length = 0 ∨ 3 < ds.length then none
    else if 1 < ds.length ∧ ds.headD 0 = 0 then none
    else
      let v := ds.foldl (fun a d => a * 10 + d) 0
      if v ≤ 255 then some v else none

/-- Dotted-quad IPv4 parser (net/netip parseIPv4). -/
def parseIPv4 (s : List Char) : Option Addr :=
  let fields := splitOnChar '.' s
  if fields.length = 4 then
    match fields.mapM parseV4Field with
    | some [a, b, c, d] => some ⟨true, ((a * 256 + b) * 256 + c) * 256 + d⟩
    | _ => none
  else none

/-- One IPv6 group: 1-4 hexadecimal digits. -/
def parseHexGroup (s : List Char) : Option ℕ :=
  match s.mapM hexDigit with
  | none => none
  | some ds =>
    if ds.length = 0 ∨ 4 < ds.length then none
    else some (ds.foldl (fun a d => a * 16 + d) 0)

/-- Parse a list of IPv6 group strings into 16-bit values.  When v4Tail is
true, the final group may be an embedded dotted quad (contributing two
16-bit groups), as net/netip allows only at the end of an address. -/
def parseGroups (v4Tail : Bool) : List (List Char) → Option (List ℕ)
  | [] => some []
  | [g] =>
    if g.contains '.' then
      if v4Tail then
        match parseIPv4 g with
        | some a => some [a.val / 65536, a.val % 65536]
        | none => none
      else none
    else (parseHexGroup g).map fun v => [v]
  | g :: rest =>
    match parseHexGroup g, parseGroups v4Tail rest with
    | some v, some vs => some (v :: vs)
    | _, _ => none

/-- Split at the first occurrence of a double colon, if any. -/
def splitDoubleColon : List Char → Option (List Char × List Char)
  | [] => none
  | a :: rest =>
    match rest with
    | [] => none
    | b :: rest2 =>
      if a = ':' ∧ b = ':' then some ([], rest2)
      else
        match splitDoubleColon rest with
        | some (l, r) => some (a :: l, r)
        | none => none

/-- Combine 16-bit groups into the 128-bit value. -/
def groupsToVal (gs : List ℕ) : ℕ :=
  gs.foldl (fun a g => a * 65536 + g) 0

/-- IPv6 parser (net/netip parseIPv6): at most one double colon, which must
expand to at least one zero group; without one, exactly eight groups. -/
def parseIPv6 (s : List Char) : Option Addr :=
  match splitDoubleColon s with
  | some (l, r) =>
    if (splitDoubleColon r).isSome then none
    else
      let lparts := if l = [] then [] else splitOnChar ':' l
      let rparts := if r = [] then [] else splitOnChar ':' r
      match parseGroups false lparts, parseGroups true rparts with
      | some lg, some rg =>
        if lg.length + rg.length ≤ 7 then
          some ⟨false, groupsToVal (lg ++ List.replicate (8 - lg.length - rg.length) 0 ++ rg)⟩
        else none
      | _, _ => none
  | none =>
    match parseGroups true (splitOnChar ':' s) with
    | some gs => if gs.length = 8 then some ⟨false, groupsToVal gs⟩ else none
    | none => none

/-- net/netip.ParseAddr: the first dot or colon decides between IPv4 and
IPv6 form. -/
def parseAddrGo (s : List Char) : Option Addr :=
  if s.contains '%' then none
  else
    match s.find? (fun c => c = '.' ∨ c = ':') with
    | some c => if c = ':' then parseIPv6 s else parseIPv4 s
    | none => none

/-! ## pkg/iputil/iputil.go -/

/-- Whitespace test for the TrimSpace model. -/
def isSpaceChar (c : Char) : Bool := c = ' ' ∨ c = '\t' ∨ c = '\n' ∨ c = '\r'

/-- strings.TrimSpace. -/
def trimSpace (s : List Char) : List Char :=
  ((s.dropWhile isSpaceChar).reverse.dropWhile isSpaceChar).reverse

/-- Index of the first occurrence of a character. -/
def indexOfChar (c : Char) (s : List Char) : Option ℕ :=
  s.findIdx? (fun a => a = c)

/-- Index of the last occurrence of a character. -/
def lastIndexOfChar (c : Char) (s : List Char) : Option ℕ :=
  match s.reverse.findIdx? (fun a => a = c) with
  | some i => some (s.length - 1 - i)
  | none => none

/-- ParseIP (pkg/iputil/iputil.go lines 12-33): trim, strip brackets
[x]:port, strip a trailing :port when the string has both a dot and a
colon (truncating at the LAST colon), then netip.ParseAddr. -/
def ParseIP (s0 : List Char) : Option Addr :=
  let s := trimSpace s0
  let s1 :=
    if s.head? = some '[' then
      match indexOfChar ']' s with
      | some idx => (s.drop 1).take (idx - 1)
      | none => s
    else if s.contains '.' ∧ s.contains ':' then
      match lastIndexOfChar ':' s with
      | some idx => s.take idx
      | none => s
    else s
  parseAddrGo s1

/-- Is4In6 on the model: a 16-byte address whose bits above the low 32 are
exactly 0x...ffff. -/
def addrIs4In6 (a : Addr) : Bool := !a.v4 && a.val / 2 ^ 32 = 65535

/-- NormalizeIP (pkg/iputil/iputil.go lines 156-162): unmap IPv4-mapped IPv6. -/
def NormalizeIP (a : Addr) : Addr :=
  if addrIs4In6 a then ⟨true, a.val % 2 ^ 32⟩ else a

/-! ## Networks (CIDR values) and the net/netip ParsePrefix model -/

/-- A parsed CIDR value: address family, base address, bit length.  This
models netip.Prefix (the base address is not necessarily masked). -/
structure Network where
  v4 : Bool
  addr : ℕ
  bits : ℕ
deriving DecidableEq

/-- Decimal bit-count parser used by ParsePrefix (no leading zeros). -/
def parseBitsDec (s : List Char) : Option ℕ :=
  match s.mapM decDigit with
  | none => none
  | some ds =>
    if ds.length = 0 ∨ 3 < ds.length then none
    else if 1 < ds.length ∧ ds.headD 0 = 0 then none
    else some (ds.foldl (fun a d => a * 10 + d) 0)

/-- net/netip.ParsePrefix: split at the last slash, parse address and bit
count, bound the bit count by the family width. -/
def parsePrefixGo (s : List Char) : Option Network :=
  match lastIndexOfChar '/' s with
  | none => none
  | some i =>
    match parseAddrGo (s.take i), parseBitsDec (s.drop (i + 1)) with
    | some a, some b =>
      if b ≤ (if a.v4 then 32 else 128) then some ⟨a.v4, a.val, b⟩ else none
    | _, _ => none

/-- parseToPrefix (internal/mmdb/writer.go lines 356-369) and the identical
inline fallback of CompileFromIPReputations (lines 203-217): try ParsePrefix,
else ParseAddr widened to /32 or /128. -/
def parseToNetwork (s : List Char) : Option Network :=
  match parsePrefixGo s with
  | some p => some p
  | none =>
    match parseAddrGo s with
    | some a => some ⟨a.v4, a.val, if a.v4 then 32 else 128⟩
    | none => none

/-! ## MMDB writer (internal/mmdb/writer.go) -/

/-- EntryFlags (writer.go lines 69-78). -/
structure EntryFlags where
  isTor : Bool
  isVPN : Bool
  isProxy : Bool
  isDatacenter : Bool
  isBotnet : Bool
  isMalware : Bool
  isSpam : Bool
  isAttacker : Bool
deriving DecidableEq

/-- All-false flags (the zero value of EntryFlags). -/
def noFlags : EntryFlags := ⟨false, false, false, false, false, false, false, false⟩

/-- threatTypeToFlags (writer.go lines 253-276). -/
def threatTypeToFlags (threatType : String) : EntryFlags :=
  if threatType = "tor" then { noFlags with isTor := true }
  else if threatType = "vpn" then { noFlags with isVPN := true }
  else if threatType = "proxy" then { noFlags with isProxy := true }
  else if threatType = "datacenter" then { noFlags with isDatacenter := true }
  else if threatType = "botnet_c2" then { noFlags with isBotnet := true }
  else if threatType = "malware" then { noFlags with isMalware := true }
  else if threatType = "spam" then { noFlags with isSpam := true }
  else if threatType = "attack" then { noFlags with isAttacker := true }
  else noFlags

/-- Field-wise OR of flags (the merge block of writer.go lines 324-333). -/
def orFlags (a b : EntryFlags) : EntryFlags :=
  ⟨a.isTor || b.isTor, a.isVPN || b.isVPN, a.isProxy || b.isProxy,
   a.isDatacenter || b.isDatacenter, a.isBotnet || b.isBotnet,
   a.isMalware || b.isMalware, a.isSpam || b.isSpam, a.isAttacker || b.isAttacker⟩

/-- models.IPReputation (pkg/models/models.go lines 9-21), the fields used by
the compiler and writer (Metadata and ExpiresAt are never read there). -/
structure IPReputation where
  ipRange : String
  source : String
  threatType : String
  confidence : ℚ
  weight : ℤ
  riskScore : ℤ
  firstSeen : ℚ
  lastSeen : ℚ
deriving DecidableEq

/-- ReputationEntry (writer.go lines 57-66); the Go field named after the
CIDR value is called network here. -/
structure ReputationEntry where
  network : Network
  riskScore : ℤ
  riskLevel : String
  threatType : String
  confidence : ℚ
  sources : List String
  flags : EntryFlags
  lastUpdate : ℚ
deriving DecidableEq

/-- Threat built by Compiler.Compile from one reputation row
(src/unnamed/part_002 lines 102-108). -/
def threatOfRep (rep : IPReputation) : Threat :=
  { threatType := rep.threatType, source := rep.source, confidence := rep.confidence,
    weight := rep.weight, lastSeen := rep.lastSeen }

/-- Scoring loop of Compiler.Compile (part_002 lines 100-112): each row is
scored on a singleton threat list with no ASN info. -/
noncomputable def compileScores (reps : List IPReputation) (now : ℚ) : List IPReputation :=
  reps.map fun rep =>
    { rep with riskScore := CalculateScore defaultConfig [threatOfRep rep] none now }

/-- Entry built from one row by CompileFromIPReputations (writer.go lines
202-231); rows whose range fails to parse are skipped. -/
def entryOfRep (rep : IPReputation) : Option ReputationEntry :=
  (parseToNetwork rep.ipRange.toList).map fun nw =>
    { network := nw, riskScore := rep.riskScore, riskLevel := classifyRiskW rep.riskScore,
      threatType := rep.threatType, confidence := rep.confidence, sources := [rep.source],
      flags := threatTypeToFlags rep.threatType, lastUpdate := rep.lastSeen }

/-- The compiled MMDB tree, keyed by exact network; mmdbwriter with
inserter.ReplaceWith stores one record per exact key. -/
abbrev MMDBTree := Network → Option ReputationEntry

/-- Empty tree. -/
def emptyTree : MMDBTree := fun _ => none

/-- One tree.Insert with inserter.ReplaceWith (writer.go lines 99, 109-122):
the new record replaces any previous record at the exact key. -/
def insertReplace (tree : MMDBTree) (e : ReputationEntry) : MMDBTree :=
  fun p => if p = e.network then some e else tree p

/-- Insertion loop of CompileToMMDB (writer.go lines 105-122). -/
def compileToTree (entries : List ReputationEntry) : MMDBTree :=
  entries.foldl insertReplace emptyTree

/-- Compiler.Compile composed with CompileFromIPReputations (part_002 lines
79-129 and writer.go lines 199-234): score each row on its own, build one
entry per row, insert in list order with replace-on-collision. -/
noncomputable def compileReputations (reps : List IPReputation) (now : ℚ) : MMDBTree :=
  compileToTree ((compileScores reps now).filterMap entryOfRep)

/-- Claim-side merged record for C1 (spec §4.4 step 2): scoring over the full
observation list of the key, OR of all flags, distinct sources in insertion
order.  This follows the claim wording, for comparison with the code. -/
structure ClaimRecord where
  riskScore : ℤ
  flags : EntryFlags
  sources : List String
deriving DecidableEq

/-- Deduplicate keeping first occurrences in order. -/
def dedupInsertionOrder (l : List String) : List String :=
  l.foldl (fun acc s => if s ∈ acc then acc else acc ++ [s]) []

/-- The record the C1 claim asserts the compiled DB stores at network p. -/
noncomputable def claimMergedRecord (reps : List IPReputation) (now : ℚ) (p : Network) :
    Option ClaimRecord :=
  let obs := reps.filter fun rep => parseToNetwork rep.ipRange.toList = some p
  if obs = [] then none
  else some
    { riskScore := CalculateScore defaultConfig (obs.map threatOfRep) none now,
      flags := (obs.map fun rep => threatTypeToFlags rep.threatType).foldl orFlags noFlags,
      sources := dedupInsertionOrder (obs.map fun rep => rep.source) }

/-! ## Writer.MergeAndCompile (writer.go lines 279-353)

The Go input is a map from source name to rows; Go map iteration order is
arbitrary, so the map is modelled as a list of pairs whose order is the
iteration order of one particular run. -/

/-- The merged map keyed by the raw IPRange string (writer.go line 281). -/
abbrev MergeStore := String → Option ReputationEntry

/-- Empty merged map. -/
def emptyMergeStore : MergeStore := fun _ => none

/-- Fresh entry inserted by MergeAndCompile when the key is not yet present
(writer.go lines 288-303). -/
def freshEntry (nw : Network) (sourceName : String) (rep : IPReputation) : ReputationEntry :=
  { network := nw, riskScore := rep.riskScore, riskLevel := classifyRiskW rep.riskScore,
    threatType := rep.threatType, confidence := rep.confidence,
    sources := [sourceName], flags := threatTypeToFlags rep.threatType,
    lastUpdate := rep.lastSeen }

/-- Merge of one row into an existing entry (writer.go lines 304-339), the
five updates in source order: higher score wins, higher confidence wins,
source appended if absent, flags ORed, later last_seen wins. -/
def mergedEntry (existing : ReputationEntry) (sourceName : String) (rep : IPReputation) :
    ReputationEntry :=
  let e1 :=
    if existing.riskScore < rep.riskScore then
      { existing with riskScore := rep.riskScore, riskLevel := classifyRiskW rep.riskScore }
    else existing
  let e2 := if e1.confidence < rep.confidence then { e1 with confidence := rep.confidence } else e1
  let e3 :=
    if sourceName ∈ e2.sources then e2 else { e2 with sources := e2.sources ++ [sourceName] }
  let e4 := { e3 with flags := orFlags e3.flags (threatTypeToFlags rep.threatType) }
  if e4.lastUpdate < rep.lastSeen then { e4 with lastUpdate := rep.lastSeen } else e4

/-- Value stored at a key after one iteration of the inner loop of
MergeAndCompile, as a function of the value previously at that key: absent
keys get a fresh entry when the range parses (and stay absent otherwise,
writer.go line 290 continue), present keys are merged. -/
def stepVal (cur : Option ReputationEntry) (sourceName : String) (rep : IPReputation) :
    Option ReputationEntry :=
  match cur with
  | none => (parseToNetwork rep.ipRange.toList).map fun nw => freshEntry nw sourceName rep
  | some existing => some (mergedEntry existing sourceName rep)

/-- Body of the inner loop of MergeAndCompile (writer.go lines 284-341): the
map is read and written only at key rep.IPRange. -/
def mergeStep (m : MergeStore) (sourceName : String) (rep : IPReputation) : MergeStore :=
  fun k => if k = rep.ipRange then stepVal (m rep.ipRange) sourceName rep else m k

/-- The two nested loops of MergeAndCompile (writer.go lines 283-342). -/
def mergeStore (sources : List (String × List IPReputation)) : MergeStore :=
  sources.foldl (fun m pr => pr.2.foldl (fun m2 r => mergeStep m2 pr.1 r) m) emptyMergeStore

/-- Flattened (sourceName, row) iteration sequence of MergeAndCompile. -/
def mergePairs (sources : List (String × List IPReputation)) : List (String × IPReputation) :=
  sources.flatMap fun pr => pr.2.map fun r => (pr.1, r)

/-- Fold of mergeStep over a flat iteration sequence. -/
def mergeFold (l : List (String × IPReputation)) (m : MergeStore) : MergeStore :=
  l.foldl (fun m2 pr => mergeStep m2 pr.1 pr.2) m

/-- The iteration-order-independent view of a merged entry: everything except
the order of the sources array and the threat type (which keep whatever the
first-iterated source produced). -/
structure StableView where
  network : Network
  riskScore : ℤ
  riskLevel : String
  confidence : ℚ
  flags : EntryFlags
  lastUpdate : ℚ
  sourceSet : Finset String
deriving DecidableEq

/-- Stable projection of an entry. -/
def stableOf (e : ReputationEntry) : StableView :=
  ⟨e.network, e.riskScore, e.riskLevel, e.confidence, e.flags, e.lastUpdate, e.sources.toFinset⟩

/-- Two merged maps agree on all order-independent fields. -/
def storesAgree (m1 m2 : MergeStore) : Prop :=
  ∀ k, (m1 k).map stableOf = (m2 k).map stableOf

/-- One risk-level update of the merge: the level switches to the new score's
class exactly when the score strictly increases (writer.go lines 306-309). -/
def levelStep (score : ℤ) (level : String) (newScore : ℤ) : String :=
  if score < newScore then classifyRiskW newScore else level

/-- The stable view of merging one row into an existing entry: every
order-independent field is a max / OR / union of the old view and the row. -/
def mergedStable (s : StableView) (sourceName : String) (rep : IPReputation) : StableView :=
  { network := s.network,
    riskScore := max s.riskScore rep.riskScore,
    riskLevel := levelStep s.riskScore s.riskLevel rep.riskScore,
    confidence := max s.confidence rep.confidence,
    flags := orFlags s.flags (threatTypeToFlags rep.threatType),
    lastUpdate := max s.lastUpdate rep.lastSeen,
    sourceSet := insert sourceName s.sourceSet }

/-! ## Store upsert (internal/database/postgres.go) -/

/-- database.IPReputationEntry (postgres.go lines 61-75); Metadata is never
written by the upsert and is omitted. -/
structure UpsertEntry where
  ipStart : String
  ipEnd : String
  cidr : Option String
  source : String
  sourceName : Option String
  threatType : String
  confidence : ℚ
  weight : ℤ
  firstSeen : ℚ
  lastSeen : ℚ
  expiresAt : Option ℚ
deriving DecidableEq

/-- One stored row of ip_reputation (columns other than the key). -/
structure StoredRow where
  cidr : Option String
  sourceName : Option String
  threatType : String
  confidence : ℚ
  weight : ℤ
  firstSeen : ℚ
  lastSeen : ℚ
  expiresAt : Option ℚ
deriving DecidableEq

/-- The ip_reputation table keyed on (ip_start, ip_end, source). -/
abbrev PgStore := String × String × String → Option StoredRow

/-- Empty table. -/
def emptyPgStore : PgStore := fun _ => none

/-- Unique key of an upsert entry. -/
def upsertKey (e : UpsertEntry) : String × String × String := (e.ipStart, e.ipEnd, e.source)

/-- Row written by a conflict-free insert (all VALUES columns). -/
def rowOfEntry (e : UpsertEntry) : StoredRow :=
  ⟨e.cidr, e.sourceName, e.threatType, e.confidence, e.weight, e.firstSeen, e.lastSeen, e.expiresAt⟩

/-- InsertReputation (postgres.go lines 78-111).  ON CONFLICT (ip_start,
ip_end, source) DO UPDATE SET confidence = GREATEST(old, new), weight =
GREATEST(old, new), last_seen = new; every other column keeps its stored
value.  The same DO UPDATE list appears in InsertReputationBatch (lines
122-130) and InsertReputationBulk (lines 215-224). -/
def insertReputation (st : PgStore) (e : UpsertEntry) : PgStore :=
  fun k =>
    if k = upsertKey e then
      match st (upsertKey e) with
      | none => some (rowOfEntry e)
      | some old =>
        some { old with
                confidence := max old.confidence e.confidence,
                weight := max old.weight e.weight,
                lastSeen := e.lastSeen }
    else st k

/-! ## IPRangeFromPrefix (postgres.go lines 442-465) and LookupIP containment -/

/-- IPRangeFromPrefix modelled on numeric addresses (Go renders the same
values as inet text; the SQL comparisons of LookupIP, postgres.go line 237,
order inet values exactly as these numbers).  IPv4: startIP clears the low
(32-bits) bits (Go: startIP &^ ((1<<maskBits)-1), where for maskBits = 32 the
uint32 shift wraps to mask 2^32-1, the same value as 2^maskBits-1); endIP ORs
the low mask back in.  IPv6: Go uses masked := p.Masked() and returns
end = start (the acknowledged simplification in the source). -/
def ipRangeFromNetwork (p : Network) : ℕ × ℕ :=
  if p.v4 then
    let maskBits := 32 - p.bits
    let startIP := (p.addr >>> maskBits) <<< maskBits
    let endIP := startIP ||| (2 ^ maskBits - 1)
    (startIP, endIP)
  else
    let masked := (p.addr >>> (128 - p.bits)) <<< (128 - p.bits)
    (masked, masked)

/-- Membership of a numeric IPv4 address in a network: the top bits
coincide (netip.Prefix.Contains). -/
def inNetworkV4 (p : Network) (a : ℕ) : Prop :=
  a >>> (32 - p.bits) = p.addr >>> (32 - p.bits)

/-- Membership of a numeric IPv6 address in a network. -/
def inNetworkV6 (p : Network) (a : ℕ) : Prop :=
  a >>> (128 - p.bits) = p.addr >>> (128 - p.bits)

/-! ## MMDB reader (internal/mmdb/reader.go) -/

/-- ReputationRecord (reader.go lines 16-51); the eight booleans are grouped
into EntryFlags, the optional geo/ASN strings are not read by the lookups
modelled here. -/
structure ReputationRecord where
  riskScore : ℤ
  riskLevel : String
  flags : EntryFlags
  threatType : String
  confidence : ℤ
  sources : List String
  lastUpdate : ℤ
deriving DecidableEq

/-- The zero value a maxminddb lookup leaves in the record when the address
has no entry. -/
def zeroRecord : ReputationRecord := ⟨0, "", noFlags, "", 0, [], 0⟩

/-- A loaded reputation DB: the decoded record per address, none when the
address has no entry. -/
abbrev RepDB := Addr → Option ReputationRecord

/-- Result of maxminddb Reader.Lookup into a zero-initialised record
(reader.go lines 181-184). -/
def lookupDecode (db : RepDB) (ip : Addr) : ReputationRecord :=
  match db ip with
  | some r => r
  | none => zeroRecord

/-- LookupReputation (reader.go lines 172-195): error when no DB is loaded;
ok none exactly when the decoded record has risk score 0 and empty threat
type; otherwise the record. -/
def LookupReputation (db : Option RepDB) (ip : Addr) :
    Except String (Option ReputationRecord) :=
  match db with
  | none => Except.error "reputation database not loaded"
  | some d =>
    let record := lookupDecode d ip
    if record.riskScore = 0 ∧ record.threatType = "" then Except.ok none
    else Except.ok (some record)

/-- The reputation-derived part of models.IPCheckResult set by LookupAll. -/
structure LookupAllView where
  score : ℤ
  riskScore : ℤ
  riskLevel : String
  flags : EntryFlags
deriving DecidableEq

/-- LookupAll (reader.go lines 286-316), reputation part: on a record, copy
score and flags; on a miss or error, score 0, level clean, zero flags. -/
def LookupAllRep (db : Option RepDB) (ip : Addr) : LookupAllView :=
  match LookupReputation db ip with
  | Except.ok (some rep) => ⟨rep.riskScore, rep.riskScore, rep.riskLevel, rep.flags⟩
  | _ => ⟨0, 0, "clean", noFlags⟩

/-! ## Theorems -/

/-- Clamping lands in [minScore, maxScore] = [0, 100] for the default config. -/
theorem clampScore_mem (s : ℤ) : 0 ≤ clampScore defaultConfig s ∧ clampScore defaultConfig s ≤ 100 := by
  simp only [clampScore, defaultConfig]
  split_ifs <;> omega

/-- C3: for every list of observations (including the empty list), every
optional ASN info and every reference time, CalculateScore with the default
configuration returns an integer in [0, 100]. -/
theorem c3_score_bounds (threats : List Threat) (asnInfo : Option ASNInfo) (now : ℚ) :
    0 ≤ CalculateScore defaultConfig threats asnInfo now ∧
    CalculateScore defaultConfig threats asnInfo now ≤ 100 := by
  by_cases h : threats = []
  · simp [CalculateScore, h, defaultConfig]
  · simp only [CalculateScore, if_neg h]
    exact clampScore_mem _

/-- Rank of the classified level as a nested conditional on the score. -/
theorem riskRank_ClassifyRisk (s : ℤ) :
    riskRank (ClassifyRisk s) =
      if s ≥ 85 then 4 else if s ≥ 70 then 3 else if s ≥ 50 then 2 else if s ≥ 25 then 1 else 0 := by
  unfold ClassifyRisk
  split_ifs <;> rfl

/-- C7: risk classification (identical in the scorer and the MMDB writer)
always lands in the closed five-element set, is monotone in the score, and
takes the claimed values at the boundary scores 24, 25, 49, 50, 69, 70, 84
and 85. -/
theorem c7_classify_properties :
    (∀ s : ℤ, ClassifyRisk s = classifyRiskW s) ∧
    (∀ s : ℤ, ClassifyRisk s ∈ (["clean", "low", "medium", "high", "critical"] : List String)) ∧
    (∀ s t : ℤ, s ≤ t → riskRank (ClassifyRisk s) ≤ riskRank (ClassifyRisk t)) ∧
    (ClassifyRisk 24 = "clean" ∧ ClassifyRisk 25 = "low" ∧ ClassifyRisk 49 = "low" ∧
     ClassifyRisk 50 = "medium" ∧ ClassifyRisk 69 = "medium" ∧ ClassifyRisk 70 = "high" ∧
     ClassifyRisk 84 = "high" ∧ ClassifyRisk 85 = "critical") := by
  refine ⟨fun s => rfl, fun s => ?_, fun s t h => ?_, by decide⟩
  · unfold ClassifyRisk
    split_ifs <;> simp
  · rw [riskRank_ClassifyRisk, riskRank_ClassifyRisk]
    split_ifs <;> omega

/-- Witness for C7: the monotonicity conjunct applied at scores 30 and 90. -/
theorem c7_witness : (30 : ℤ) ≤ 90 ∧ riskRank (ClassifyRisk 30) ≤ riskRank (ClassifyRisk 90) :=
  ⟨by decide, c7_classify_properties.2.2.1 30 90 (by decide)⟩

/-- C5 counterexample: two upserts of the same (ip_start, ip_end, source) key
where the second provides expires_at = 99; the stored row keeps the original
expires_at = 10, so expires_at does not become the new value as claimed.  The
DO UPDATE SET list of InsertReputation never assigns expires_at. -/
theorem c5_counterexample :
    ((insertReputation (insertReputation emptyPgStore
        ⟨"10.0.0.1", "10.0.0.1", none, "feedA", none, "tor", 1, 70, 0, 5, some 10⟩)
        ⟨"10.0.0.1", "10.0.0.1", none, "feedA", none, "tor", 1, 70, 0, 6, some 99⟩)
      ("10.0.0.1", "10.0.0.1", "feedA")).map (fun r => r.expiresAt) = some (some 10) ∧
    (some (some (10 : ℚ)) : Option (Option ℚ)) ≠ some (some 99) := by
  constructor
  · rfl
  · decide

/-- C5 amended: on a (ip_start, ip_end, source) conflict the stored row gets
confidence = max(old, new), weight = max(old, new), last_seen = new, and every
other column — including expires_at — keeps its stored value; consequently
upserting the same entry twice equals upserting it once. -/
theorem c5_upsert_merge :
    (∀ (st : PgStore) (e : UpsertEntry) (old : StoredRow), st (upsertKey e) = some old →
      (insertReputation st e) (upsertKey e) =
        some { old with confidence := max old.confidence e.confidence,
                        weight := max old.weight e.weight,
                        lastSeen := e.lastSeen }) ∧
    (∀ (st : PgStore) (e : UpsertEntry),
      insertReputation (insertReputation st e) e = insertReputation st e) := by
  constructor
  · intro st e old h
    simp [insertReputation, h]
  · intro st e
    funext k
    by_cases hk : k = upsertKey e
    · subst hk
      cases h : st (upsertKey e) with
      | none => simp [insertReputation, h, rowOfEntry, max_self]
      | some old =>
        simp only [insertReputation, if_pos rfl, h]
        simp [max_assoc, max_self]
    · simp [insertReputation, hk]

/-- Witness for C5: the conflict conjunct applied to a concrete store holding
one row and a conflicting upsert. -/
theorem c5_witness :
    (insertReputation (insertReputation emptyPgStore
        ⟨"10.0.0.1", "10.0.0.1", none, "feedA", none, "tor", 1, 70, 0, 5, some 10⟩)
        ⟨"10.0.0.1", "10.0.0.1", none, "feedA", none, "spam", 1/2, 60, 2, 6, some 99⟩)
      (upsertKey ⟨"10.0.0.1", "10.0.0.1", none, "feedA", none, "spam", 1/2, 60, 2, 6, some 99⟩) =
      some { rowOfEntry ⟨"10.0.0.1", "10.0.0.1", none, "feedA", none, "tor", 1, 70, 0, 5, some 10⟩ with
              confidence := max (1 : ℚ) (1/2), weight := max (70 : ℤ) 60, lastSeen := (6 : ℚ) } :=
  c5_upsert_merge.1
    (insertReputation emptyPgStore
      ⟨"10.0.0.1", "10.0.0.1", none, "feedA", none, "tor", 1, 70, 0, 5, some 10⟩)
    ⟨"10.0.0.1", "10.0.0.1", none, "feedA", none, "spam", 1/2, 60, 2, 6, some 99⟩
    (rowOfEntry ⟨"10.0.0.1", "10.0.0.1", none, "feedA", none, "tor", 1, 70, 0, 5, some 10⟩)
    (by rfl)

/-- C10: the reader reports not-found (ok none, no error) exactly when the
decoded record has risk score 0 and empty threat type, so a stored record
with those values is indistinguishable from an absent record, and LookupAll
reports it as clean with score 0. -/
theorem c10_lookup_not_found :
    (∀ (d : RepDB) (ip : Addr),
       LookupReputation (some d) ip = Except.ok none ↔
         ((lookupDecode d ip).riskScore = 0 ∧ (lookupDecode d ip).threatType = "")) ∧
    (∀ (d : RepDB) (ip : Addr) (r : ReputationRecord), d ip = some r →
       r.riskScore = 0 → r.threatType = "" →
       LookupReputation (some d) ip = Except.ok none ∧
       (∀ d2 : RepDB, d2 ip = none →
          LookupReputation (some d) ip = LookupReputation (some d2) ip ∧
          LookupAllRep (some d) ip = LookupAllRep (some d2) ip) ∧
       LookupAllRep (some d) ip = ⟨0, 0, "clean", noFlags⟩) := by
  constructor
  · intro d ip
    simp only [LookupReputation]
    split_ifs with h
    · simpa using h
    · simpa using h
  · intro d ip r hd h0 ht
    have hdec : lookupDecode d ip = r := by simp [lookupDecode, hd]
    have hlook : LookupReputation (some d) ip = Except.ok none := by
      simp [LookupReputation, hdec, h0, ht]
    refine ⟨hlook, fun d2 h2 => ?_, ?_⟩
    · have hdec2 : lookupDecode d2 ip = zeroRecord := by simp [lookupDecode, h2]
      have hlook2 : LookupReputation (some d2) ip = Except.ok none := by
        simp [LookupReputation, hdec2, zeroRecord]
      constructor
      · rw [hlook, hlook2]
      · simp only [LookupAllRep]
        rw [hlook, hlook2]
    · simp only [LookupAllRep]
      rw [hlook]

/-- Witness for C10: a database storing a record with risk score 0 and empty
threat type (but a non-empty sources array) at every address. -/
theorem c10_witness :
    LookupReputation (some fun _ => some ⟨0, "odd", noFlags, "", 55, ["feedA"], 9⟩) ⟨true, 5⟩ =
      Except.ok none ∧
    LookupAllRep (some fun _ => some ⟨0, "odd", noFlags, "", 55, ["feedA"], 9⟩) ⟨true, 5⟩ =
      ⟨0, 0, "clean", noFlags⟩ := by
  have h := c10_lookup_not_found.2 (fun _ => some ⟨0, "odd", noFlags, "", 55, ["feedA"], 9⟩)
    ⟨true, 5⟩ ⟨0, "odd", noFlags, "", 55, ["feedA"], 9⟩ rfl rfl rfl
  exact ⟨h.1, h.2.2⟩

/-- Exponential at -1/100 is at least 1/10 (used to discharge the decay floor). -/
theorem exp_hundredth_ge : (1/10 : ℝ) ≤ Real.exp (-(1/100)) := by
  have h := Real.add_one_le_exp (-(1/100) : ℝ)
  linarith

/-- For ages in [24h, max_age] the decay is the floored exponential. -/
theorem calculateDecay_mid (ls now : ℚ) (hls : ls ≠ 0) (h1 : 86400 ≤ now - ls)
    (h2 : now - ls ≤ 15552000) :
    calculateDecay defaultConfig ls now =
      max (1/10) (Real.exp (-(1/100) * (((now - ls : ℚ) : ℝ) / 86400))) := by
  unfold calculateDecay
  rw [if_neg hls]
  have hcast : -((defaultConfig.decayLambda : ℚ) : ℝ) * (((now - ls : ℚ) : ℝ) / 86400) =
      -(1/100) * (((now - ls : ℚ) : ℝ) / 86400) := by
    norm_num [defaultConfig]
  have hgt : ¬((now - ls : ℚ) > defaultConfig.maxAge) := by
    simp only [defaultConfig]
    linarith
  have hlt : ¬((now - ls : ℚ) < 24 * 3600) := by
    linarith
  simp only [hgt, if_false, hlt, hcast]
  rcases lt_or_le (Real.exp (-(1/100) * (((now - ls : ℚ) : ℝ) / 86400))) (1/10) with h | h
  · rw [if_pos h, max_eq_left (le_of_lt h)]
  · rw [if_neg (not_lt.mpr h), max_eq_right h]

/-- C6 counterexample: at age exactly 24 hours (last_seen 1, now 86401) the
decay is exp(-0.01), approximately 0.990, not 1.0 — the freshness check
age < 24h of calculateDecay is strict. -/
theorem c6_counterexample : calculateDecay defaultConfig 1 86401 ≠ 1 := by
  have h1 : calculateDecay defaultConfig 1 86401 = Real.exp (-(1/100)) := by
    have h := calculateDecay_mid 1 86401 (by norm_num) (by norm_num) (by norm_num)
    rw [h]
    norm_num
    exact exp_hundredth_ge
  rw [h1]
  exact ne_of_lt (Real.exp_lt_one_iff.mpr (by norm_num))

/-- C6 amended: the decay equals exp(-λ) at age exactly 24 hours (within
[0.1, 1) but not 1.0; the claim's value 1.0 holds only for age strictly
below 24 hours); it is 0.1 at age max_age + 1s; for ages in [24h, max_age]
it is max(0.1, exp(-λ · age_in_days)) and lies in [0.1, 1]; and it is 0.5
when last_seen is zero. -/
theorem c6_decay_properties :
    (∀ ls now : ℚ, ls ≠ 0 → now - ls = 86400 →
       calculateDecay defaultConfig ls now = Real.exp (-(1/100)) ∧
       (1/10 : ℝ) ≤ calculateDecay defaultConfig ls now ∧
       calculateDecay defaultConfig ls now < 1) ∧
    (∀ ls now : ℚ, ls ≠ 0 → now - ls = 15552001 →
       calculateDecay defaultConfig ls now = 1/10) ∧
    (∀ ls now : ℚ, ls ≠ 0 → 86400 ≤ now - ls → now - ls ≤ 15552000 →
       calculateDecay defaultConfig ls now =
         max (1/10) (Real.exp (-(1/100) * (((now - ls : ℚ) : ℝ) / 86400))) ∧
       (1/10 : ℝ) ≤ calculateDecay defaultConfig ls now ∧
       calculateDecay defaultConfig ls now ≤ 1) ∧
    (∀ ls now : ℚ, ls ≠ 0 → now - ls < 86400 → calculateDecay defaultConfig ls now = 1) ∧
    (∀ now : ℚ, calculateDecay defaultConfig 0 now = 1/2) := by
  refine ⟨?_, ?_, ?_, ?_, ?_⟩
  · intro ls now hls hage
    have h := calculateDecay_mid ls now hls (by rw [hage]) (by rw [hage]; norm_num)
    rw [hage] at h
    norm_num at h
    rw [h, max_eq_right exp_hundredth_ge]
    exact ⟨rfl, exp_hundredth_ge, Real.exp_lt_one_iff.mpr (by norm_num)⟩
  · intro ls now hls hage
    unfold calculateDecay
    rw [if_neg hls, hage]
    norm_num [defaultConfig]
  · intro ls now hls h1 h2
    have h := calculateDecay_mid ls now hls h1 h2
    refine ⟨h, ?_, ?_⟩
    · rw [h]; exact le_max_left _ _
    · rw [h]
      refine max_le (by norm_num) (Real.exp_le_one_iff.mpr ?_)
      have hnn : (0 : ℝ) ≤ ((now - ls : ℚ) : ℝ) / 86400 := by
        have : (0 : ℝ) ≤ ((now - ls : ℚ) : ℝ) := by
          have : (0 : ℚ) ≤ now - ls := by linarith
          exact_mod_cast this
        linarith
      nlinarith
  · intro ls now hls hage
    unfold calculateDecay
    rw [if_neg hls]
    have hgt : ¬((now - ls : ℚ) > defaultConfig.maxAge) := by
      simp only [defaultConfig]
      linarith
    have hlt : (now - ls : ℚ) < 24 * 3600 := by linarith
    simp [hgt, hlt]
  · intro now
    unfold calculateDecay
    rw [if_pos rfl]

/-- Witness for C6: the max_age + 1 second conjunct at last_seen 1,
now 15552002. -/
theorem c6_witness :
    (1 : ℚ) ≠ 0 ∧ (15552002 : ℚ) - 1 = 15552001 ∧
    calculateDecay defaultConfig 1 15552002 = 1/10 :=
  ⟨by norm_num, by norm_num, c6_decay_properties.2.1 1 15552002 (by norm_num) (by norm_num)⟩

/-- Folding additions equals the sum of the mapped list. -/
theorem foldl_add_map_sum (f : Threat → ℝ) (l : List Threat) (a : ℝ) :
    l.foldl (fun acc t => acc + f t) a = a + (l.map f).sum := by
  induction l generalizing a with
  | nil => simp
  | cons x xs ih => simp [ih, add_assoc]

/-- The accumulation loop computes the sum of the contributions. -/
theorem baseTotal_eq_sum (cfg : ScoringConfig) (l : List Threat) (now : ℚ) :
    baseTotal cfg l now = (l.map (threatContribution cfg now)).sum := by
  simp [baseTotal, foldl_add_map_sum]

/-- The dedup length used by the loop is the cardinality of the set of
threat types. -/
theorem distinct_eq_card (l : List Threat) :
    distinctThreatTypes l = (l.map fun t => t.threatType).toFinset.card := by
  rw [distinctThreatTypes, List.card_toFinset]

/-- Sequential clamping equals min/max clamping for the default bounds. -/
theorem clampScore_min_max (s : ℤ) : clampScore defaultConfig s = min 100 (max 0 s) := by
  simp only [clampScore, defaultConfig]
  split_ifs <;> omega

/-- C2: for non-empty observation lists, CalculateScore with the default
configuration computes exactly the claim formula (sum of weight x confidence
x decay with the 0.5 confidence default and unknown weight 50, times 1.10
for multiple distinct threat types, ASN modifier plus 1.15 datacenter or
hosting multiplier, one-time +5 high-confidence bonus, rounded half away
from zero, clamped to [0, 100]); the empty list yields exactly 0. -/
theorem c2_score_formula (threats : List Threat) (asnInfo : Option ASNInfo) (now : ℚ) :
    (threats ≠ [] →
      CalculateScore defaultConfig threats asnInfo now = specScore threats asnInfo now) ∧
    CalculateScore defaultConfig [] asnInfo now = 0 := by
  constructor
  · intro h
    have hmul : ∀ x : ℝ, applyMultiThreat defaultConfig threats x =
        if 1 < ((threats.map fun t => t.threatType).toFinset.card) then x * (11/10) else x := by
      intro x
      rw [applyMultiThreat, distinct_eq_card]
      norm_num [defaultConfig]
    have hasn : ∀ x : ℝ, applyASN defaultConfig asnInfo x =
        (match asnInfo with
         | none => x
         | some info =>
           let withModifier := x + (getASNModifier defaultConfig info.asnType : ℝ)
           if info.asnType = "datacenter" ∨ info.asnType = "hosting" then withModifier * (23/20)
           else withModifier) := by
      intro x
      cases asnInfo with
      | none => rfl
      | some info =>
        simp only [applyASN]
        norm_num [defaultConfig]
    have hconf : ∀ x : ℝ, applyHighConfidence defaultConfig threats x =
        if ∃ t ∈ threats, (9/10 : ℚ) ≤ t.confidence then x + 5 else x := by
      intro x
      simp only [applyHighConfidence, defaultConfig]
      norm_num
    rw [CalculateScore, if_neg h, clampScore_min_max, baseTotal_eq_sum, hmul, hasn, hconf]
    rfl
  · rfl

/-- Witness for C2: a single fresh tor observation with confidence 1. -/
theorem c2_witness :
    ([⟨"tor", "t", 1, 70, 0⟩] : List Threat) ≠ [] ∧
    CalculateScore defaultConfig [⟨"tor", "t", 1, 70, 0⟩] none 0 =
      specScore [⟨"tor", "t", 1, 70, 0⟩] none 0 :=
  ⟨by decide, (c2_score_formula [⟨"tor", "t", 1, 70, 0⟩] none 0).1 (by decide)⟩

/-- Folding replace-on-collision inserts over a tree reads back, at each key,
the last inserted entry with that key (or the previous content). -/
theorem compileToTree_apply (l : List ReputationEntry) (t0 : MMDBTree) (p : Network) :
    (l.foldl insertReplace t0) p =
      match l.reverse.find? (fun e => decide (p = e.network)) with
      | some e => some e
      | none => t0 p := by
  induction l generalizing t0 with
  | nil => rfl
  | cons a l ih =>
    show (l.foldl insertReplace (insertReplace t0 a)) p = _
    rw [ih]
    rw [List.reverse_cons, List.find?_append]
    cases h : l.reverse.find? (fun e => decide (p = e.network)) with
    | some e => rfl
    | none =>
      by_cases hp : p = a.network
      · simp [insertReplace, hp]
      · simp [insertReplace, hp]

/-- C1 counterexample: two observations on the same prefix 1.2.3.0/24 from
sources a and b.  The compiled DB stores sources = [b] (the last inserted
row replaced the first), while the claim requires the merged sources
[a, b]; the flags and risk score likewise come from the b row alone. -/
theorem c1_counterexample :
    ((compileReputations
        [⟨"1.2.3.0/24", "a", "tor", 1, 70, 0, 0, 0⟩,
         ⟨"1.2.3.0/24", "b", "proxy", 1, 50, 0, 0, 0⟩] 0)
        ⟨true, 16909056, 24⟩).map (fun e => e.sources) = some ["b"] ∧
    (claimMergedRecord
        [⟨"1.2.3.0/24", "a", "tor", 1, 70, 0, 0, 0⟩,
         ⟨"1.2.3.0/24", "b", "proxy", 1, 50, 0, 0, 0⟩] 0
        ⟨true, 16909056, 24⟩).map (fun c => c.sources) = some ["a", "b"] ∧
    (["b"] : List String) ≠ ["a", "b"] := by
  refine ⟨rfl, rfl, by decide⟩

/-- C1 amended: the record the compiled DB stores at each exact network is
not a merge; it is the entry of the LAST row (in fetch order) whose range
parses to that network, scored by the scoring engine on that single
observation alone (asn = nil, compile-time now), with flags derived from
that observation's threat type only and sources equal to the one-element
list of its source. -/
theorem c1_compile_replaces_per_key (reps : List IPReputation) (now : ℚ) (p : Network) :
    compileReputations reps now p =
      ((compileScores reps now).filterMap entryOfRep).reverse.find?
        (fun e => decide (p = e.network)) := by
  rw [compileReputations, compileToTree, compileToTree_apply]
  cases ((compileScores reps now).filterMap entryOfRep).reverse.find?
      (fun e => decide (p = e.network)) with
  | some e => rfl
  | none => rfl

/-- Down-then-up shifting clears the low k bits. -/
theorem shiftRight_shiftLeft_eq (a k : ℕ) : (a >>> k) <<< k = 2 ^ k * (a / 2 ^ k) := by
  rw [Nat.shiftRight_eq_div_pow, Nat.shiftLeft_eq, Nat.mul_comm]

/-- The half-open block [P*q, P*q + P) is exactly the set of a with a/P = q. -/
theorem range_cover_iff (P q a : ℕ) (hP : 0 < P) :
    (P * q ≤ a ∧ a < P * q + P) ↔ a / P = q := by
  constructor
  · rintro ⟨lo, hi⟩
    have h1 : q ≤ a / P := (Nat.le_div_iff_mul_le hP).mpr (by rwa [Nat.mul_comm q P])
    have h2 : a / P < q + 1 := by
      refine (Nat.div_lt_iff_lt_mul hP).mpr ?_
      calc a < P * q + P := hi
        _ = (q + 1) * P := by ring
    omega
  · intro h
    constructor
    · rw [← h, Nat.mul_comm]
      exact Nat.div_mul_le_self a P
    · have hmod : a % P < P := Nat.mod_lt _ hP
      have hsplit : P * (a / P) + a % P = a := Nat.div_add_mod a P
      rw [← h]
      calc a = P * (a / P) + a % P := hsplit.symm
        _ < P * (a / P) + P := Nat.add_lt_add_left hmod _

/-- C9: for every IPv6 network with bit length below 128, IPRangeFromPrefix
returns end = start (the masked network address), so the store's inclusive
containment start ≤ a ≤ end matches only the network address itself and
excludes other addresses of the network; for every IPv4 network the
returned range covers exactly the addresses of the network. -/
theorem c9_range_semantics :
    (∀ p : Network, p.v4 = false → p.bits < 128 →
       (ipRangeFromNetwork p).1 = (ipRangeFromNetwork p).2 ∧
       (∀ a : ℕ, ((ipRangeFromNetwork p).1 ≤ a ∧ a ≤ (ipRangeFromNetwork p).2) ↔
          a = (p.addr >>> (128 - p.bits)) <<< (128 - p.bits)) ∧
       (∃ a : ℕ, inNetworkV6 p a ∧
          ¬((ipRangeFromNetwork p).1 ≤ a ∧ a ≤ (ipRangeFromNetwork p).2))) ∧
    (∀ p : Network, p.v4 = true →
       ∀ a : ℕ, ((ipRangeFromNetwork p).1 ≤ a ∧ a ≤ (ipRangeFromNetwork p).2) ↔
         inNetworkV4 p a) := by
  constructor
  · intro p hv hb
    have hrange : ipRangeFromNetwork p =
        ((p.addr >>> (128 - p.bits)) <<< (128 - p.bits),
         (p.addr >>> (128 - p.bits)) <<< (128 - p.bits)) := by
      simp [ipRangeFromNetwork, hv]
    refine ⟨by rw [hrange], fun a => ?_, ?_⟩
    · rw [hrange]
      constructor
      · rintro ⟨h1, h2⟩
        omega
      · rintro rfl
        exact ⟨le_refl _, le_refl _⟩
    · set k := 128 - p.bits with hk
      have hk1 : 1 ≤ k := by omega
      have h2k : 1 < 2 ^ k := Nat.one_lt_two_pow_iff.mpr (by omega)
      refine ⟨(p.addr >>> k) <<< k + 1, ?_, ?_⟩
      · show ((p.addr >>> k) <<< k + 1) >>> k = p.addr >>> k
        rw [shiftRight_shiftLeft_eq, Nat.shiftRight_eq_div_pow, Nat.shiftRight_eq_div_pow]
        rw [Nat.mul_add_div (Nat.two_pow_pos k)]
        rw [Nat.div_eq_of_lt h2k, Nat.add_zero]
      · rw [hrange]
        omega
  · intro p hv a
    have hstart : (ipRangeFromNetwork p).1 = 2 ^ (32 - p.bits) * (p.addr / 2 ^ (32 - p.bits)) := by
      simp [ipRangeFromNetwork, hv, shiftRight_shiftLeft_eq]
    have hend : (ipRangeFromNetwork p).2 =
        2 ^ (32 - p.bits) * (p.addr / 2 ^ (32 - p.bits)) + (2 ^ (32 - p.bits) - 1) := by
      simp only [ipRangeFromNetwork, hv, if_true]
      rw [shiftRight_shiftLeft_eq]
      exact (Nat.mul_add_lt_is_or (Nat.sub_lt (Nat.two_pow_pos _) Nat.one_pos) _).symm
    rw [hstart, hend, inNetworkV4, Nat.shiftRight_eq_div_pow, Nat.shiftRight_eq_div_pow]
    have hP : 0 < 2 ^ (32 - p.bits) := Nat.two_pow_pos _
    rw [← range_cover_iff (2 ^ (32 - p.bits)) (p.addr / 2 ^ (32 - p.bits)) a hP]
    constructor
    · rintro ⟨h1, h2⟩
      exact ⟨h1, by omega⟩
    · rintro ⟨h1, h2⟩
      exact ⟨h1, by omega⟩

/-- Witness for C9: the IPv6 network 0::5/64. -/
theorem c9_witness :
    (ipRangeFromNetwork ⟨false, 5, 64⟩).1 = (ipRangeFromNetwork ⟨false, 5, 64⟩).2 :=
  (c9_range_semantics.1 ⟨false, 5, 64⟩ rfl (by decide)).1

/-- C8 (code bug): ParseIP applied to the IPv4-mapped textual form
::ffff:1.2.3.4 strips everything from the last colon on (its port-stripping
branch fires because the string contains both a dot and a colon), so
netip.ParseAddr receives "::ffff" and yields the IPv6 address 0::ffff, and
NormalizeIP leaves it unchanged — not the address 1.2.3.4 obtained from the
plain form.  The last two conjuncts show that the parser itself (without the
port-stripping preprocessing) does return the mapped form, which NormalizeIP
would unmap to 1.2.3.4, so the iputil.ParseIP heuristic is the slip. -/
theorem c8_parse_mapped_ipv6_bug :
    (ParseIP ("::ffff:1.2.3.4".toList)).map NormalizeIP = some ⟨false, 65535⟩ ∧
    (ParseIP ("1.2.3.4".toList)).map NormalizeIP = some ⟨true, 16909060⟩ ∧
    ((some (⟨false, 65535⟩ : Addr) : Option Addr) ≠ some ⟨true, 16909060⟩) ∧
    parseAddrGo ("::ffff:1.2.3.4".toList) = some ⟨false, 65535 * 2 ^ 32 + 16909060⟩ ∧
    NormalizeIP ⟨false, 65535 * 2 ^ 32 + 16909060⟩ = ⟨true, 16909060⟩ := by
  refine ⟨by decide, by decide, by decide, by decide, by decide⟩

/-! ### Lemmas for the MergeAndCompile order analysis (C4) -/

/-- A conditional bump to the larger value is a max. -/
theorem ite_lt_eq_max {α : Type} [LinearOrder α] (a b : α) : (if a < b then b else a) = max a b := by
  rcases lt_or_le a b with h | h
  · rw [if_pos h, max_eq_right h.le]
  · rw [if_neg (not_lt.mpr h), max_eq_left h]

/-- The merge step leaves the network unchanged. -/
theorem mergedEntry_network (ex : ReputationEntry) (n : String) (rep : IPReputation) :
    (mergedEntry ex n rep).network = ex.network := by
  simp only [mergedEntry, apply_ite ReputationEntry.network, ite_self]

/-- The merge step keeps the larger risk score. -/
theorem mergedEntry_riskScore (ex : ReputationEntry) (n : String) (rep : IPReputation) :
    (mergedEntry ex n rep).riskScore = max ex.riskScore rep.riskScore := by
  simp only [mergedEntry, apply_ite ReputationEntry.riskScore, ite_self]
  exact ite_lt_eq_max _ _

/-- The merge step reclassifies the level exactly when the score grows. -/
theorem mergedEntry_riskLevel (ex : ReputationEntry) (n : String) (rep : IPReputation) :
    (mergedEntry ex n rep).riskLevel = levelStep ex.riskScore ex.riskLevel rep.riskScore := by
  simp only [mergedEntry, apply_ite ReputationEntry.riskLevel, ite_self, levelStep]

/-- The merge step keeps the first threat type. -/
theorem mergedEntry_threatType (ex : ReputationEntry) (n : String) (rep : IPReputation) :
    (mergedEntry ex n rep).threatType = ex.threatType := by
  simp only [mergedEntry, apply_ite ReputationEntry.threatType, ite_self]

/-- The merge step keeps the larger confidence. -/
theorem mergedEntry_confidence (ex : ReputationEntry) (n : String) (rep : IPReputation) :
    (mergedEntry ex n rep).confidence = max ex.confidence rep.confidence := by
  simp only [mergedEntry, apply_ite ReputationEntry.confidence, ite_self]
  exact ite_lt_eq_max _ _

/-- The merge step appends the source when absent. -/
theorem mergedEntry_sources (ex : ReputationEntry) (n : String) (rep : IPReputation) :
    (mergedEntry ex n rep).sources =
      if n ∈ ex.sources then ex.sources else ex.sources ++ [n] := by
  simp only [mergedEntry, apply_ite ReputationEntry.sources, ite_self]

/-- The merge step ORs the flags. -/
theorem mergedEntry_flags (ex : ReputationEntry) (n : String) (rep : IPReputation) :
    (mergedEntry ex n rep).flags = orFlags ex.flags (threatTypeToFlags rep.threatType) := by
  simp only [mergedEntry, apply_ite ReputationEntry.flags, ite_self]

/-- The merge step keeps the later last-seen time. -/
theorem mergedEntry_lastUpdate (ex : ReputationEntry) (n : String) (rep : IPReputation) :
    (mergedEntry ex n rep).lastUpdate = max ex.lastUpdate rep.lastSeen := by
  simp only [mergedEntry, apply_ite ReputationEntry.lastUpdate, ite_self]
  exact ite_lt_eq_max _ _

/-- Distinct-keeping first-occurrence toFinset of a conditional append. -/
theorem toFinset_cond_append (l : List String) (n : String) :
    (if n ∈ l then l else l ++ [n]).toFinset = insert n l.toFinset := by
  split_ifs with h
  · exact (Finset.insert_eq_self.mpr (List.mem_toFinset.mpr h)).symm
  · rw [List.toFinset_append]
    simp [Finset.insert_eq, Finset.union_comm]

/-- Stable projection of a merge step. -/
theorem stableOf_mergedEntry (ex : ReputationEntry) (n : String) (rep : IPReputation) :
    stableOf (mergedEntry ex n rep) = mergedStable (stableOf ex) n rep := by
  unfold stableOf mergedStable
  rw [mergedEntry_network, mergedEntry_riskScore, mergedEntry_riskLevel, mergedEntry_confidence,
      mergedEntry_flags, mergedEntry_lastUpdate, mergedEntry_sources, toFinset_cond_append]

/-- Stable projection of a fresh entry. -/
theorem stableOf_freshEntry (nw : Network) (n : String) (rep : IPReputation) :
    stableOf (freshEntry nw n rep) =
      ⟨nw, rep.riskScore, classifyRiskW rep.riskScore, rep.confidence,
       threatTypeToFlags rep.threatType, rep.lastSeen, {n}⟩ := by
  simp [stableOf, freshEntry]

/-- Level step starting from the classification of the old score. -/
theorem levelStep_eq_max (x y : ℤ) : levelStep x (classifyRiskW x) y = classifyRiskW (max x y) := by
  unfold levelStep
  rcases lt_or_le x y with h | h
  · rw [if_pos h, max_eq_right h.le]
  · rw [if_neg (not_lt.mpr h), max_eq_left h]

/-- Two sequential level steps only depend on the max of the incoming scores. -/
theorem levelStep_step (x y1 y2 : ℤ) (lvl : String) :
    levelStep (max x y1) (levelStep x lvl y1) y2 =
      if x < max y1 y2 then classifyRiskW (max y1 y2) else lvl := by
  unfold levelStep
  rcases le_total y1 y2 with h | h
  · rw [max_eq_right h]
    by_cases hx2 : x < y2
    · rw [if_pos hx2]
      by_cases hmax : max x y1 < y2
      · rw [if_pos hmax]
      · have hy : y1 = y2 := by omega
        rw [if_neg hmax, if_pos (show x < y1 by omega), hy]
    · have hmax : ¬ max x y1 < y2 := by omega
      rw [if_neg hmax, if_neg hx2, if_neg (show ¬ x < y1 by omega)]
  · rw [max_eq_left h]
    have hmax : ¬ max x y1 < y2 := by omega
    rw [if_neg hmax]

/-- Field-wise OR of flags commutes. -/
theorem orFlags_comm (a b : EntryFlags) : orFlags a b = orFlags b a := by
  simp [orFlags, Bool.or_comm]

/-- Field-wise OR of flags right-commutes. -/
theorem orFlags_right_comm (f a b : EntryFlags) :
    orFlags (orFlags f a) b = orFlags (orFlags f b) a := by
  simp [orFlags, Bool.or_assoc, Bool.or_comm, Bool.or_left_comm]

/-- Merging two rows into a stable view commutes. -/
theorem mergedStable_comm (s : StableView) (n1 : String) (r1 : IPReputation)
    (n2 : String) (r2 : IPReputation) :
    mergedStable (mergedStable s n1 r1) n2 r2 = mergedStable (mergedStable s n2 r2) n1 r1 := by
  unfold mergedStable
  congr 1
  · exact sup_right_comm _ _ _
  · rw [levelStep_step, levelStep_step, max_comm r2.riskScore r1.riskScore]
  · exact sup_right_comm _ _ _
  · exact orFlags_right_comm _ _ _
  · exact sup_right_comm _ _ _
  · exact Finset.Insert.comm _ _ _

/-- Creating a fresh entry from either row and merging the other commutes in
the stable view. -/
theorem mergedStable_fresh_comm (nw : Network) (n1 : String) (r1 : IPReputation)
    (n2 : String) (r2 : IPReputation) :
    mergedStable (stableOf (freshEntry nw n1 r1)) n2 r2 =
      mergedStable (stableOf (freshEntry nw n2 r2)) n1 r1 := by
  rw [stableOf_freshEntry, stableOf_freshEntry]
  unfold mergedStable
  congr 1
  · exact max_comm _ _
  · rw [levelStep_eq_max, levelStep_eq_max, max_comm]
  · exact max_comm _ _
  · exact orFlags_comm _ _
  · exact max_comm _ _
  · exact Finset.pair_comm _ _

/-- Congruence of one merge step in the stable view. -/
theorem stepVal_congr (cur1 cur2 : Option ReputationEntry) (n : String) (rep : IPReputation)
    (h : cur1.map stableOf = cur2.map stableOf) :
    (stepVal cur1 n rep).map stableOf = (stepVal cur2 n rep).map stableOf := by
  cases cur1 with
  | none =>
    cases cur2 with
    | none => rfl
    | some e2 => exact absurd h (by simp)
  | some e1 =>
    cases cur2 with
    | none => exact absurd h (by simp)
    | some e2 =>
      have h2 : stableOf e1 = stableOf e2 := by
        simpa using h
      simp only [stepVal, Option.map_some']
      rw [stableOf_mergedEntry, stableOf_mergedEntry, h2]

/-- Two merge steps at the same key commute in the stable view. -/
theorem stepVal_swap (cur : Option ReputationEntry) (n1 : String) (r1 : IPReputation)
    (n2 : String) (r2 : IPReputation) (hk : r1.ipRange = r2.ipRange) :
    (stepVal (stepVal cur n1 r1) n2 r2).map stableOf =
      (stepVal (stepVal cur n2 r2) n1 r1).map stableOf := by
  cases cur with
  | some ex =>
    simp only [stepVal, Option.map_some']
    rw [stableOf_mergedEntry, stableOf_mergedEntry, stableOf_mergedEntry, stableOf_mergedEntry]
    rw [mergedStable_comm]
  | none =>
    simp only [stepVal]
    rw [hk]
    cases hp : parseToNetwork r2.ipRange.toList with
    | none => simp [hp]
    | some nw =>
      simp only [hp, Option.map_some', stepVal]
      rw [stableOf_mergedEntry, stableOf_mergedEntry]
      rw [mergedStable_fresh_comm nw n1 r1 n2 r2]

/-- Agreement of merged maps is transitive. -/
theorem storesAgree_trans {a b c : MergeStore} (h1 : storesAgree a b) (h2 : storesAgree b c) :
    storesAgree a c := fun k => (h1 k).trans (h2 k)

/-- A merge step only changes its own key. -/
theorem mergeStep_apply_ne (m : MergeStore) (n : String) (rep : IPReputation) (k : String)
    (h : k ≠ rep.ipRange) : (mergeStep m n rep) k = m k := by
  simp [mergeStep, h]

/-- A merge step preserves store agreement. -/
theorem mergeStep_congr {m1 m2 : MergeStore} (h : storesAgree m1 m2) (n : String)
    (rep : IPReputation) : storesAgree (mergeStep m1 n rep) (mergeStep m2 n rep) := by
  intro k
  by_cases hk : k = rep.ipRange
  · simp only [mergeStep, if_pos hk]
    exact stepVal_congr _ _ n rep (h rep.ipRange)
  · rw [mergeStep_apply_ne _ _ _ _ hk, mergeStep_apply_ne _ _ _ _ hk]
    exact h k

/-- Two adjacent merge steps commute in the stable view. -/
theorem mergeStep_swap (m : MergeStore) (n1 : String) (r1 : IPReputation)
    (n2 : String) (r2 : IPReputation) :
    storesAgree (mergeStep (mergeStep m n1 r1) n2 r2) (mergeStep (mergeStep m n2 r2) n1 r1) := by
  intro k
  by_cases h12 : r1.ipRange = r2.ipRange
  · by_cases hk : k = r2.ipRange
    · simp only [mergeStep, if_pos hk, if_pos (h12 ▸ hk), h12]
      exact stepVal_swap (m r2.ipRange) n1 r1 n2 r2 h12
    · have hk1 : k ≠ r1.ipRange := fun he => hk (h12 ▸ he)
      simp [mergeStep, hk, hk1]
  · by_cases hk1 : k = r1.ipRange <;> by_cases hk2 : k = r2.ipRange
    · exact absurd (hk1 ▸ hk2) h12
    · have hne : r1.ipRange ≠ r2.ipRange := h12
      simp [mergeStep, hk1, hk2, hne]
    · have hne : r2.ipRange ≠ r1.ipRange := fun he => h12 he.symm
      simp [mergeStep, hk1, hk2, hne]
    · simp [mergeStep, hk1, hk2]

/-- Folding merge steps preserves agreement. -/
theorem mergeFold_congr (l : List (String × IPReputation)) {m1 m2 : MergeStore}
    (h : storesAgree m1 m2) : storesAgree (mergeFold l m1) (mergeFold l m2) := by
  induction l generalizing m1 m2 with
  | nil => exact h
  | cons x l ih => exact ih (mergeStep_congr h x.1 x.2)

/-- Permuting the iteration sequence leaves the stable view unchanged. -/
theorem mergeFold_perm {l1 l2 : List (String × IPReputation)} (h : l1.Perm l2) :
    ∀ m : MergeStore, storesAgree (mergeFold l1 m) (mergeFold l2 m) := by
  induction h with
  | nil => intro m k; rfl
  | cons x h ih => intro m; exact ih (mergeStep m x.1 x.2)
  | swap x y l => intro m; exact mergeFold_congr l (mergeStep_swap m y.1 y.2 x.1 x.2)
  | trans h1 h2 ih1 ih2 => intro m; exact storesAgree_trans (ih1 m) (ih2 m)

/-- The nested loops of MergeAndCompile fold the flattened pair sequence. -/
theorem mergeStore_eq_fold (S : List (String × List IPReputation)) :
    mergeStore S = mergeFold (mergePairs S) emptyMergeStore := by
  suffices h : ∀ (S : List (String × List IPReputation)) (m : MergeStore),
      S.foldl (fun m pr => pr.2.foldl (fun m2 r => mergeStep m2 pr.1 r) m) m =
        mergeFold (mergePairs S) m from h S emptyMergeStore
  intro S
  induction S with
  | nil => intro m; rfl
  | cons pr S ih =>
    intro m
    show S.foldl _ (pr.2.foldl (fun m2 r => mergeStep m2 pr.1 r) m) = _
    rw [ih]
    simp only [mergePairs, List.flatMap_cons, mergeFold, List.foldl_append, List.foldl_map]

/-- C4 counterexample: the same map content iterated in two orders (feed a
then feed b, and the reverse) produces different records at the shared key:
the sources arrays are [a, b] and [b, a].  Go map iteration order is not
deterministic, so two runs over the same observations can differ. -/
theorem c4_counterexample :
    (mergePairs [("a", [⟨"1.2.3.0/24", "x", "tor", 1, 70, 40, 0, 5⟩]),
                 ("b", [⟨"1.2.3.0/24", "y", "proxy", 1, 50, 30, 0, 5⟩])]).Perm
      (mergePairs [("b", [⟨"1.2.3.0/24", "y", "proxy", 1, 50, 30, 0, 5⟩]),
                   ("a", [⟨"1.2.3.0/24", "x", "tor", 1, 70, 40, 0, 5⟩])]) ∧
    ((mergeStore [("a", [⟨"1.2.3.0/24", "x", "tor", 1, 70, 40, 0, 5⟩]),
                  ("b", [⟨"1.2.3.0/24", "y", "proxy", 1, 50, 30, 0, 5⟩])])
        "1.2.3.0/24").map (fun e => e.sources) = some ["a", "b"] ∧
    ((mergeStore [("b", [⟨"1.2.3.0/24", "y", "proxy", 1, 50, 30, 0, 5⟩]),
                  ("a", [⟨"1.2.3.0/24", "x", "tor", 1, 70, 40, 0, 5⟩])])
        "1.2.3.0/24").map (fun e => e.sources) = some ["b", "a"] ∧
    (["a", "b"] : List String) ≠ ["b", "a"] := by
  refine ⟨by decide, by decide, by decide, by decide⟩

/-- C4 amended: compilation is deterministic in everything except
iteration-order artifacts.  For any two iteration sequences that are
permutations of the same multiset of (source, observation) pairs, the merged
maps agree at every key on risk_score, risk_level, confidence, the boolean
flags, last_update and the set of sources; only the order of the sources
array and the threat_type field may differ between runs. -/
theorem c4_merge_stable_perm (S1 S2 : List (String × List IPReputation))
    (h : (mergePairs S1).Perm (mergePairs S2)) :
    storesAgree (mergeStore S1) (mergeStore S2) := by
  rw [mergeStore_eq_fold, mergeStore_eq_fold]
  exact mergeFold_perm h emptyMergeStore

/-- Witness for C4: the two concrete iteration orders of the counterexample
agree on all stable fields. -/
theorem c4_witness :
    storesAgree
      (mergeStore [("a", [⟨"1.2.3.0/24", "x", "tor", 1, 70, 40, 0, 5⟩]),
                   ("b", [⟨"1.2.3.0/24", "y", "proxy", 1, 50, 30, 0, 5⟩])])
      (mergeStore [("b", [⟨"1.2.3.0/24", "y", "proxy", 1, 50, 30, 0, 5⟩]),
                   ("a", [⟨"1.2.3.0/24", "x", "tor", 1, 70, 40, 0, 5⟩])]) :=
  c4_merge_stable_perm _ _ (by decide)

end Beon
